import Mathlib

/-!
# Verification of the sql-tap PostgreSQL proxy per-connection capture core

Shallow embedding of `proxy/postgres/conn.go`: the per-connection protocol
capture state machine (simple query, extended query Parse/Bind/Execute,
transaction detection, non-blocking event emission), the startup relay loop,
and the `parseRowsAffected` helper.

Modelling conventions:
* Go `string` values are Lean `String`s; `string(byteSlice)` (Go's
  byte-identity conversion applied to Bind parameters) is modelled as the
  identity on `String`.
* Go `uint64` arithmetic is `Nat` with explicit `% 2^64`.
* `uuid.New().String()` and `time.Now()` are nondeterministic inputs: each
  processed message carries the UUID string and the clock value the handlers
  would draw, so the step function is deterministic in its inputs.
* The bounded outbound channel is a `List Event` together with a capacity;
  Go's non-blocking `select`/`default` try-send appends when below capacity
  and otherwise leaves the channel unchanged.
* `strings.ToUpper` is modelled on the ASCII range (the keyword prefixes
  `BEGIN`/`COMMIT`/`ROLLBACK` that the code compares against are ASCII).
-/

namespace SqlTap

/-- Go `unicode.IsSpace`: the Unicode White_Space code points. -/
def goIsSpace (c : Char) : Bool :=
  c == ' ' || c == '\t' || c == '\n' || c.toNat == 11 || c.toNat == 12 ||
  c == '\r' || c.toNat == 0x85 || c.toNat == 0xA0 || c.toNat == 0x1680 ||
  (0x2000 ≤ c.toNat && c.toNat ≤ 0x200A) || c.toNat == 0x2028 ||
  c.toNat == 0x2029 || c.toNat == 0x202F || c.toNat == 0x205F ||
  c.toNat == 0x3000

/-- Go `strings.TrimSpace`: drop leading and trailing white space. -/
def goTrimSpace (s : String) : String :=
  ⟨((s.data.dropWhile goIsSpace).reverse.dropWhile goIsSpace).reverse⟩

/-- ASCII-range uppercase of one character (see module conventions). -/
def upperChar (c : Char) : Char :=
  if 'a' ≤ c && c ≤ 'z' then Char.ofNat (c.toNat - 32) else c

/-- Go `strings.ToUpper`, modelled on the ASCII range. -/
def goToUpper (s : String) : String :=
  ⟨s.data.map upperChar⟩

/-- Go `strings.HasPrefix s pre`. -/
def goStartsWith (s pre : String) : Bool :=
  List.isPrefixOf pre.data s.data

/-- Go `strings.Split tag " "` on the character list. -/
def splitSpaceChars : List Char → List (List Char)
  | [] => [[]]
  | c :: rest =>
    let r := splitSpaceChars rest
    if c = ' ' then [] :: r
    else
      match r with
      | [] => [[c]]
      | h :: t => (c :: h) :: t

/-- Go `strings.Split tag " "`. -/
def goSplitSpace (s : String) : List String :=
  (splitSpaceChars s.data).map fun cs => ⟨cs⟩

/-- Decimal digit value of a character, if it is a digit. -/
def digitVal (c : Char) : Option Nat :=
  if '0' ≤ c && c ≤ '9' then some (c.toNat - '0'.toNat) else none

/-- Accumulating decimal evaluation; `none` on the first non-digit. -/
def digitsAcc : List Char → Nat → Option Nat
  | [], acc => some acc
  | c :: rest, acc =>
    match digitVal c with
    | some d => digitsAcc rest (acc * 10 + d)
    | none => none

/-- Value of a non-empty all-digit character list, else `none`. -/
def digitsToNat? : List Char → Option Nat
  | [] => none
  | c :: rest => digitsAcc (c :: rest) 0

/-- Go `strconv.ParseInt s 10 64` with the error discarded, as the source
uses it: syntax errors yield 0, but range errors yield the saturated
int64 bound (Go returns the clamped value alongside `ErrRange`). -/
def goParseInt64 (s : String) : Int :=
  match s.data with
  | [] => 0
  | c :: rest =>
    let neg := c = '-'
    let ds := if c = '-' ∨ c = '+' then rest else c :: rest
    match digitsToNat? ds with
    | none => 0
    | some n =>
      if neg then
        if n > 2 ^ 63 then -(2 ^ 63 : Int) else -(n : Int)
      else
        if n ≥ 2 ^ 63 then (2 ^ 63 : Int) - 1 else (n : Int)

/-- `parseRowsAffected` from conn.go: last space-separated token of the
CommandComplete tag, parsed as int64 with the error ignored. -/
def parseRowsAffected (tag : String) : Int :=
  let parts := goSplitSpace tag
  match parts.getLast? with
  | none => 0
  | some last => goParseInt64 last

/-- Event operation. Modelled from the spec: the `proxy` package defining
the Op constants is not under src/; the spec lists the variants `Query`,
`Execute`, `Begin`, `Commit`, `Rollback` as a tagged variant. conn.go uses
only `OpQuery` and `OpExecute`. -/
inductive Op where
  | opQuery
  | opExecute
  | opBegin
  | opCommit
  | opRollback
deriving DecidableEq, Repr

/-- The emitted event record (`proxy.Event` as used by conn.go). -/
structure Event where
  id : String
  op : Op
  query : String
  args : List String
  startTime : Nat
  txID : String
deriving DecidableEq, Repr

/-- Association-list model of Go's `map[string]string`: lookup. -/
def lookupMap : List (String × String) → String → Option String
  | [], _ => none
  | (k', v') :: rest, k => if k' = k then some v' else lookupMap rest k

/-- Association-list model of Go's `map[string]string`: insert/overwrite. -/
def insertMap : List (String × String) → String → String → List (String × String)
  | [], k, v => [(k, v)]
  | (k', v') :: rest, k, v =>
    if k' = k then (k, v) :: rest else (k', v') :: insertMap rest k v

/-- Per-connection mutable state of `conn` in conn.go, together with the
contents of the bounded outbound channel. -/
structure ConnState where
  preparedStmts : List (String × String)
  lastParse : String
  lastBindArgs : List String
  lastBindStmt : String
  executeStart : Nat
  activeTxID : String
  nextID : Nat
  chan : List Event
deriving DecidableEq, Repr

/-- `newConn`: fresh per-connection state (zero values, empty map). -/
def initConn : ConnState :=
  { preparedStmts := []
    lastParse := ""
    lastBindArgs := []
    lastBindStmt := ""
    executeStart := 0
    activeTxID := ""
    nextID := 0
    chan := [] }

/-- `detectTx` from conn.go, with the UUID that `uuid.New().String()`
would return passed as an input. Returns the new `activeTxID`. -/
def detectTx (uuid q tx : String) : String :=
  let upper := goToUpper (goTrimSpace q)
  if goStartsWith upper "BEGIN" then uuid
  else if goStartsWith upper "COMMIT" || goStartsWith upper "ROLLBACK" then ""
  else tx

/-- `generateID` from conn.go: increment the uint64 counter (wrapping) and
render it in decimal (`strconv.FormatUint n 10` = `Nat.repr`). -/
def generateID (s : ConnState) : String × ConnState :=
  let n := (s.nextID + 1) % 2 ^ 64
  (Nat.repr n, { s with nextID := n })

/-- `emitEvent` from conn.go: non-blocking try-send onto the bounded
channel; drop silently when full. -/
def emitEvent (cap : Nat) (ev : Event) (s : ConnState) : ConnState :=
  if s.chan.length < cap then { s with chan := s.chan ++ [ev] } else s

/-- `handleSimpleQuery` from conn.go. Returns the updated state and the
event passed to `emitEvent`. -/
def handleSimpleQuery (cap : Nat) (uuid : String) (now : Nat) (q : String)
    (s : ConnState) : ConnState × Option Event :=
  let s := { s with activeTxID := detectTx uuid q s.activeTxID }
  let (i, s) := generateID s
  let ev : Event :=
    { id := i, op := .opQuery, query := q, args := [],
      startTime := now, txID := s.activeTxID }
  (emitEvent cap ev s, some ev)

/-- `handleParse` from conn.go: record `lastParse`; store named statements. -/
def handleParse (name q : String) (s : ConnState) : ConnState :=
  { s with
    lastParse := q
    preparedStmts :=
      if name ≠ "" then insertMap s.preparedStmts name q else s.preparedStmts }

/-- `handleBind` from conn.go. Each parameter byte slice is converted by
Go's `string(p)`, modelled as the identity on `String`. -/
def handleBind (stmt : String) (params : List String) (s : ConnState) : ConnState :=
  { s with lastBindStmt := stmt, lastBindArgs := params }

/-- `handleExecute` from conn.go. -/
def handleExecute (cap : Nat) (uuid : String) (now : Nat)
    (s : ConnState) : ConnState × Option Event :=
  let q := s.lastParse
  let q :=
    if s.lastBindStmt ≠ "" then
      match lookupMap s.preparedStmts s.lastBindStmt with
      | some stored => stored
      | none => q
    else q
  let s := { s with activeTxID := detectTx uuid q s.activeTxID, executeStart := now }
  let (i, s) := generateID s
  let ev : Event :=
    { id := i, op := .opExecute, query := q, args := s.lastBindArgs,
      startTime := now, txID := s.activeTxID }
  (emitEvent cap ev s, some ev)

/-- Frontend messages distinguished by `captureClientMsg` in conn.go.
`parse` carries name and query text, `bind` the statement name and the
parameter values; fields the handlers ignore (portal, OIDs, format codes,
row limit) are omitted; all other frontend messages are `other`. -/
inductive FrontendMsg where
  | query (q : String)
  | parse (name q : String)
  | bind (stmt : String) (params : List String)
  | execute
  | other
deriving DecidableEq, Repr

/-- `captureClientMsg` from conn.go: dispatch on the decoded message.
Returns the updated state and the event passed to `emitEvent`, if any. -/
def captureClientMsg (cap : Nat) (uuid : String) (now : Nat)
    (m : FrontendMsg) (s : ConnState) : ConnState × Option Event :=
  match m with
  | .query q => handleSimpleQuery cap uuid now q s
  | .parse name q => (handleParse name q s, none)
  | .bind stmt params => (handleBind stmt params s, none)
  | .execute => handleExecute cap uuid now s
  | .other => (s, none)

/-- Backend messages distinguished by `captureUpstreamMsg` in conn.go. -/
inductive BackendMsg where
  | readyForQuery
  | errorResponse
  | commandComplete (tag : String)
  | other (tag : Nat)
deriving DecidableEq, Repr

/-- `handleCommandComplete` from conn.go: parses the rows-affected count
and discards it (the event was already emitted at request time). -/
def handleCommandComplete (tag : String) (s : ConnState) : ConnState :=
  let rows := parseRowsAffected tag
  let _ := rows
  s

/-- `handleErrorResponse` from conn.go: discards the message. -/
def handleErrorResponse (s : ConnState) : ConnState :=
  s

/-- `captureUpstreamMsg` from conn.go. -/
def captureUpstreamMsg (m : BackendMsg) (s : ConnState) : ConnState :=
  match m with
  | .commandComplete tag => handleCommandComplete tag s
  | .errorResponse => handleErrorResponse s
  | _ => s

/-- One captured client message together with the nondeterministic inputs
(UUID draw, clock reading) its handler would consume. -/
structure Input where
  uuid : String
  now : Nat
  msg : FrontendMsg
deriving DecidableEq, Repr

/-- Run of the client-to-upstream capture loop over a list of decoded
messages. Returns the final state and, in order, every event passed to
`emitEvent` (the channel inside the state additionally records which of
them were actually enqueued). -/
def runConn (cap : Nat) (s : ConnState) : List Input → ConnState × List Event
  | [] => (s, [])
  | i :: rest =>
    let p := captureClientMsg cap i.uuid i.now i.msg s
    let r := runConn cap p.1 rest
    (r.1, p.2.toList ++ r.2)

/-- Outcome of `relayStartup` in conn.go: success on ReadyForQuery, the
auth-error on ErrorResponse, or a receive-side I/O failure. -/
inductive RelayRes where
  | ok
  | authErr
  | ioErr
deriving DecidableEq, Repr

/-- The receive loop of `relayStartup` in conn.go over the stream of
upstream receive results (`Except.error` models a failing
`c.upstream.Receive()`, including EOF of the modelled stream). Returns
the backend messages forwarded to the client, in order, and the result.
Each received message is forwarded before the type switch, so the
terminating ReadyForQuery or ErrorResponse is itself forwarded. Writes to
the client socket are modelled as succeeding. -/
def relayStartupLoop : List (Except Unit BackendMsg) → List BackendMsg × RelayRes
  | [] => ([], .ioErr)
  | .error _ :: _ => ([], .ioErr)
  | .ok m :: rest =>
    match m with
    | .readyForQuery => ([m], .ok)
    | .errorResponse => ([m], .authErr)
    | _ =>
      let p := relayStartupLoop rest
      (m :: p.1, p.2)

/-- `relayStartup` from conn.go: the client's startup message (opaque,
encoded as a `Nat`) is forwarded unchanged to upstream, then the receive
loop runs. Returns (messages written to upstream, messages forwarded to
the client, result). -/
def relayStartup (startup : Nat) (ups : List (Except Unit BackendMsg)) :
    List Nat × List BackendMsg × RelayRes :=
  (⟨[startup], relayStartupLoop ups⟩)

/-- A backend message that neither terminates the startup loop normally
nor fails it. -/
def plainB (m : BackendMsg) : Bool :=
  match m with
  | .readyForQuery => false
  | .errorResponse => false
  | _ => true

/-- Transaction class of a query text, by the same prefix test `detectTx`
performs. -/
inductive TxClass where
  | beginTx
  | endTx
  | otherTx
deriving DecidableEq, Repr

/-- Classify a query text the way `detectTx` does. -/
def txClass (q : String) : TxClass :=
  let upper := goToUpper (goTrimSpace q)
  if goStartsWith upper "BEGIN" then .beginTx
  else if goStartsWith upper "COMMIT" || goStartsWith upper "ROLLBACK" then .endTx
  else .otherTx

/-- One transition of the is-a-transaction-active bit. -/
def txStep (b : Bool) : TxClass → Bool
  | .beginTx => true
  | .endTx => false
  | .otherTx => b

/-- Whether a transaction is active after observing the given classes,
starting from the given bit. -/
def txLiveFrom (b : Bool) (cs : List TxClass) : Bool :=
  cs.foldl txStep b

/-- Whether a transaction is active after observing the given classes,
starting outside any transaction. -/
def txLive (cs : List TxClass) : Bool :=
  txLiveFrom false cs

/-- A message that makes `captureClientMsg` generate an id and emit. -/
def isGen : FrontendMsg → Bool
  | .query _ => true
  | .execute => true
  | _ => false

/-- Number of event-generating messages in a trace. -/
def genCount (l : List Input) : Nat :=
  (l.filter fun i => isGen i.msg).length

/-- Specification-side: a non-empty list of decimal digits. -/
def decDigits (cs : List Char) : Bool :=
  !cs.isEmpty && cs.all fun c => '0' ≤ c && c ≤ '9'

/-- Specification-side: value of an all-digit list, most significant
first (unbounded). -/
def digitsVal (cs : List Char) : Nat :=
  cs.foldl (fun a c => 10 * a + (c.toNat - '0'.toNat)) 0

/-- Specification-side: an optionally signed decimal integer literal,
the syntax `strconv.ParseInt` with base 10 accepts. -/
def isDecimalLit (cs : List Char) : Bool :=
  match cs with
  | [] => false
  | c :: rest =>
    if c = '-' ∨ c = '+' then decDigits rest else decDigits (c :: rest)

/-- Specification-side: mathematical value of an optionally signed
decimal literal (unbounded). -/
def decimalLitVal (cs : List Char) : Int :=
  match cs with
  | [] => 0
  | c :: rest =>
    if c = '-' then -(digitsVal rest : Int)
    else if c = '+' then (digitsVal rest : Int)
    else (digitsVal (c :: rest) : Int)

/-- Saturation of an integer to the signed 64-bit range, the clamping
`strconv.ParseInt` applies on range errors. -/
def clampInt64 (v : Int) : Int :=
  max (-(2 ^ 63)) (min v (2 ^ 63 - 1))

/-- A concrete event, used to instantiate universally quantified results. -/
def sampleEvent : Event :=
  { id := "1", op := .opQuery, query := "SELECT 1", args := [],
    startTime := 0, txID := "" }

/-- The query text `handleExecute` resolves, named for use in statements:
`lastParse`, overridden by the stored statement when `lastBindStmt` is
non-empty and present in the map. -/
def resolveQuery (s : ConnState) : String :=
  if s.lastBindStmt ≠ "" then
    match lookupMap s.preparedStmts s.lastBindStmt with
    | some stored => stored
    | none => s.lastParse
  else s.lastParse

/-- The spec's wording of Execute query resolution:
`prepared_stmts[lastBindStmt]` if that key exists, else `lastParse`
(no case split on whether `lastBindStmt` is empty). -/
def specExecQuery (s : ConnState) : String :=
  match lookupMap s.preparedStmts s.lastBindStmt with
  | some stored => stored
  | none => s.lastParse

/-! ## Basic lemmas about the association-list map and the run function -/

theorem lookupMap_insertMap (m : List (String × String)) (k v k' : String) :
    lookupMap (insertMap m k v) k' = if k' = k then some v else lookupMap m k' := by
  induction m with
  | nil =>
    by_cases h : k' = k
    · simp [insertMap, lookupMap, h]
    · simp [insertMap, lookupMap, h, Ne.symm h]
  | cons p rest ih =>
    obtain ⟨pk, pv⟩ := p
    by_cases hpk : pk = k
    · subst hpk
      by_cases h : k' = pk
      · simp [insertMap, lookupMap, h]
      · simp [insertMap, lookupMap, h, Ne.symm h]
    · by_cases h : pk = k'
      · have hk : ¬k' = k := by rw [← h]; exact hpk
        simp [insertMap, lookupMap, hpk, h, hk]
      · simp [insertMap, lookupMap, hpk, h, ih]

theorem runConn_nil (cap : Nat) (s : ConnState) : runConn cap s [] = (s, []) := rfl

theorem runConn_cons (cap : Nat) (s : ConnState) (i : Input) (l : List Input) :
    runConn cap s (i :: l) =
      ((runConn cap (captureClientMsg cap i.uuid i.now i.msg s).1 l).1,
        (captureClientMsg cap i.uuid i.now i.msg s).2.toList ++
          (runConn cap (captureClientMsg cap i.uuid i.now i.msg s).1 l).2) := rfl

theorem runConn_append (cap : Nat) (s : ConnState) (l1 l2 : List Input) :
    runConn cap s (l1 ++ l2) =
      ((runConn cap (runConn cap s l1).1 l2).1,
        (runConn cap s l1).2 ++ (runConn cap (runConn cap s l1).1 l2).2) := by
  induction l1 generalizing s with
  | nil => simp [runConn_nil]
  | cons i rest ih => simp [runConn_cons, ih]

/-! ## Step-shape lemmas for `captureClientMsg` -/

theorem captureClientMsg_query (cap : Nat) (u : String) (n : Nat) (q : String)
    (s : ConnState) :
    captureClientMsg cap u n (.query q) s =
      (emitEvent cap
        { id := Nat.repr ((s.nextID + 1) % 2 ^ 64), op := .opQuery, query := q,
            args := [], startTime := n, txID := detectTx u q s.activeTxID }
        { s with
            activeTxID := detectTx u q s.activeTxID,
            nextID := (s.nextID + 1) % 2 ^ 64 },
       some { id := Nat.repr ((s.nextID + 1) % 2 ^ 64), op := .opQuery,
                query := q, args := [], startTime := n,
                txID := detectTx u q s.activeTxID }) := rfl

theorem captureClientMsg_execute (cap : Nat) (u : String) (n : Nat) (s : ConnState) :
    captureClientMsg cap u n .execute s =
      (emitEvent cap
        { id := Nat.repr ((s.nextID + 1) % 2 ^ 64), op := .opExecute,
            query := resolveQuery s, args := s.lastBindArgs, startTime := n,
            txID := detectTx u (resolveQuery s) s.activeTxID }
        { s with
            activeTxID := detectTx u (resolveQuery s) s.activeTxID,
            executeStart := n,
            nextID := (s.nextID + 1) % 2 ^ 64 },
       some { id := Nat.repr ((s.nextID + 1) % 2 ^ 64), op := .opExecute,
                query := resolveQuery s, args := s.lastBindArgs, startTime := n,
                txID := detectTx u (resolveQuery s) s.activeTxID }) := rfl

@[simp] theorem emitEvent_preparedStmts (cap : Nat) (ev : Event) (s : ConnState) :
    (emitEvent cap ev s).preparedStmts = s.preparedStmts := by
  unfold emitEvent; split <;> rfl

@[simp] theorem emitEvent_lastParse (cap : Nat) (ev : Event) (s : ConnState) :
    (emitEvent cap ev s).lastParse = s.lastParse := by
  unfold emitEvent; split <;> rfl

@[simp] theorem emitEvent_lastBindArgs (cap : Nat) (ev : Event) (s : ConnState) :
    (emitEvent cap ev s).lastBindArgs = s.lastBindArgs := by
  unfold emitEvent; split <;> rfl

@[simp] theorem emitEvent_lastBindStmt (cap : Nat) (ev : Event) (s : ConnState) :
    (emitEvent cap ev s).lastBindStmt = s.lastBindStmt := by
  unfold emitEvent; split <;> rfl

@[simp] theorem emitEvent_executeStart (cap : Nat) (ev : Event) (s : ConnState) :
    (emitEvent cap ev s).executeStart = s.executeStart := by
  unfold emitEvent; split <;> rfl

@[simp] theorem emitEvent_activeTxID (cap : Nat) (ev : Event) (s : ConnState) :
    (emitEvent cap ev s).activeTxID = s.activeTxID := by
  unfold emitEvent; split <;> rfl

@[simp] theorem emitEvent_nextID (cap : Nat) (ev : Event) (s : ConnState) :
    (emitEvent cap ev s).nextID = s.nextID := by
  unfold emitEvent; split <;> rfl

/-- A step never inserts the empty string as a prepared-statement name
(`handleParse` guards the insert with `name != ""`). -/
theorem emptyKey_step (cap : Nat) (u : String) (n : Nat) (m : FrontendMsg)
    (s : ConnState) (h : lookupMap s.preparedStmts "" = none) :
    lookupMap ((captureClientMsg cap u n m s).1).preparedStmts "" = none := by
  cases m with
  | query q => rw [captureClientMsg_query]; simpa using h
  | parse name q =>
    by_cases hn : name = ""
    · simpa [captureClientMsg, handleParse, hn] using h
    · simp [captureClientMsg, handleParse, hn, lookupMap_insertMap, Ne.symm hn, h]
  | bind stmt ps => simpa [captureClientMsg, handleBind] using h
  | execute => rw [captureClientMsg_execute]; simpa using h
  | other => simpa [captureClientMsg] using h

/-- Reachable states have no empty-named prepared statement. -/
theorem emptyKey_run (cap : Nat) (s : ConnState) (l : List Input)
    (h : lookupMap s.preparedStmts "" = none) :
    lookupMap ((runConn cap s l).1).preparedStmts "" = none := by
  induction l generalizing s with
  | nil => simpa [runConn_nil] using h
  | cons i rest ih =>
    rw [runConn_cons]
    exact ih _ (emptyKey_step cap i.uuid i.now i.msg s h)

/-- On states with no empty-named prepared statement, the handler's
resolution agrees with the spec's unconditional map lookup. -/
theorem resolveQuery_eq_spec (s : ConnState)
    (h : lookupMap s.preparedStmts "" = none) :
    resolveQuery s = specExecQuery s := by
  by_cases hb : s.lastBindStmt = ""
  · simp [resolveQuery, specExecQuery, hb, h]
  · simp [resolveQuery, specExecQuery, hb]

/-! ## C9 — upstream capture is a no-op -/

/-- C9: processing a CommandComplete or ErrorResponse captured on the
upstream-to-client direction leaves every field of the per-connection
state unchanged; the upstream capture path contains no emit call, so no
event is emitted (the result type records state only, as the source's
upstream handlers call no emitter). -/
theorem upstream_capture_noop (m : BackendMsg) (s : ConnState) :
    captureUpstreamMsg m s = s := by
  cases m <;> rfl

/-! ## C6 — non-blocking try-send -/

/-- C6: event emission never blocks: if the bounded outbound channel has
free capacity the event is appended, and otherwise the state — channel
included — is returned unchanged (silent drop, no error, no retry:
`emitEvent` is a total function applied once). -/
theorem emit_try_send (cap : Nat) (ev : Event) (s : ConnState) :
    (s.chan.length < cap → emitEvent cap ev s = { s with chan := s.chan ++ [ev] }) ∧
    (¬s.chan.length < cap → emitEvent cap ev s = s) := by
  constructor <;> intro h <;> simp [emitEvent, h]

/-- Witness for C6: with capacity 1, the send into an empty channel
enqueues, and the send into a full channel returns the state unchanged. -/
theorem emit_try_send_wit :
    emitEvent 1 sampleEvent initConn = { initConn with chan := [sampleEvent] } ∧
    emitEvent 1 sampleEvent { initConn with chan := [sampleEvent] } =
      { initConn with chan := [sampleEvent] } :=
  ⟨(emit_try_send 1 sampleEvent initConn).1 (by decide),
   (emit_try_send 1 sampleEvent { initConn with chan := [sampleEvent] }).2 (by decide)⟩

/-! ## C1 — COMMIT/ROLLBACK events are stamped after the clear, not before -/

/-- C1 (failing run): `handleSimpleQuery` calls `detectTx` — which clears
`activeTxID` on a COMMIT-class query — before building the event, so the
COMMIT event carries the already-cleared (empty) `tx_id`, not the
pre-clear value. Here a BEGIN draws transaction id
"11111111-1111-1111-1111-111111111111"; the claim (and the repository's
TestTransactionDetection) require the subsequent COMMIT event to carry
that id, but the code stamps "". -/
theorem commit_event_txid_empty :
    ((runConn 10 initConn
        [⟨"11111111-1111-1111-1111-111111111111", 0, .query "BEGIN"⟩,
         ⟨"22222222-2222-2222-2222-222222222222", 1, .query "COMMIT"⟩]).2.map
        Event.txID)
      = ["11111111-1111-1111-1111-111111111111", ""] := by decide

/-! ## C5 — the query field is never emptied -/

/-- C5 (counterexample): the event derived from the simple query "BEGIN" —
a query whose text carries the BEGIN keyword — has query field "BEGIN",
not the empty string the claim requires. -/
theorem begin_event_query_not_empty :
    ((runConn 10 initConn [⟨"u", 0, .query "BEGIN"⟩]).2.map Event.query)
        = ["BEGIN"] ∧
      txClass "BEGIN" = .beginTx ∧ ("BEGIN" : String) ≠ "" := by
  refine ⟨by decide, by decide, by decide⟩

/-- C5 (amended): the query field is the SQL text without exception: a
simple Query event carries the text exactly as sent by the client — also
when that text carries BEGIN/COMMIT/ROLLBACK — and an Execute event
carries the resolved prepared-statement text. -/
theorem event_query_is_client_text (cap : Nat) (u : String) (n : Nat) (q : String)
    (s : ConnState) :
    ((captureClientMsg cap u n (.query q) s).2.map Event.query) = some q ∧
    ((captureClientMsg cap u n .execute s).2.map Event.query) =
      some (resolveQuery s) := by
  exact ⟨by rw [captureClientMsg_query]; rfl, by rw [captureClientMsg_execute]; rfl⟩

/-! ## C8 — Parse and Bind frame effects -/

/-- C8: a Parse sets `lastParse`, inserts `(name, query)` exactly when the
name is non-empty, removes nothing (lookups at other keys are unchanged),
emits no event and changes no other field; a Bind sets `lastBindStmt` and
`lastBindArgs` (parameters taken in order, byte-slice-to-string modelled
as the identity), emits no event and changes no other field. -/
theorem parse_bind_frame (cap : Nat) (u : String) (n : Nat) (name q stmt : String)
    (ps : List String) (k : String) (s : ConnState) :
    ((captureClientMsg cap u n (.parse name q) s).2 = none ∧
      (captureClientMsg cap u n (.parse name q) s).1.lastParse = q ∧
      lookupMap (captureClientMsg cap u n (.parse name q) s).1.preparedStmts k =
        (if name ≠ "" ∧ k = name then some q else lookupMap s.preparedStmts k) ∧
      (captureClientMsg cap u n (.parse name q) s).1.lastBindArgs = s.lastBindArgs ∧
      (captureClientMsg cap u n (.parse name q) s).1.lastBindStmt = s.lastBindStmt ∧
      (captureClientMsg cap u n (.parse name q) s).1.executeStart = s.executeStart ∧
      (captureClientMsg cap u n (.parse name q) s).1.activeTxID = s.activeTxID ∧
      (captureClientMsg cap u n (.parse name q) s).1.nextID = s.nextID ∧
      (captureClientMsg cap u n (.parse name q) s).1.chan = s.chan) ∧
    ((captureClientMsg cap u n (.bind stmt ps) s).2 = none ∧
      (captureClientMsg cap u n (.bind stmt ps) s).1.lastBindStmt = stmt ∧
      (captureClientMsg cap u n (.bind stmt ps) s).1.lastBindArgs = ps ∧
      (captureClientMsg cap u n (.bind stmt ps) s).1.preparedStmts = s.preparedStmts ∧
      (captureClientMsg cap u n (.bind stmt ps) s).1.lastParse = s.lastParse ∧
      (captureClientMsg cap u n (.bind stmt ps) s).1.executeStart = s.executeStart ∧
      (captureClientMsg cap u n (.bind stmt ps) s).1.activeTxID = s.activeTxID ∧
      (captureClientMsg cap u n (.bind stmt ps) s).1.nextID = s.nextID ∧
      (captureClientMsg cap u n (.bind stmt ps) s).1.chan = s.chan) := by
  refine ⟨⟨rfl, rfl, ?_, rfl, rfl, rfl, rfl, rfl, rfl⟩,
    rfl, rfl, rfl, rfl, rfl, rfl, rfl, rfl, rfl⟩
  by_cases hn : name = ""
  · simp [captureClientMsg, handleParse, hn]
  · simp [captureClientMsg, handleParse, hn, lookupMap_insertMap]

/-! ## C2 — shape of Execute events -/

/-- C2: on any reachable state, an Execute emits an event with
`op = Execute`, `args` the parameters stored by the most recent Bind,
query text `prepared_stmts[lastBindStmt]` when that key exists else
`lastParse`, and `tx_id` the value of `active_tx_id` at emission time
(after §4.5 transaction detection has been applied to the resolved
text). -/
theorem execute_event_shape (cap : Nat) (l : List Input) (u : String) (n : Nat) :
    ((captureClientMsg cap u n .execute (runConn cap initConn l).1).2.map Event.op)
        = some .opExecute ∧
    ((captureClientMsg cap u n .execute (runConn cap initConn l).1).2.map Event.args)
        = some (runConn cap initConn l).1.lastBindArgs ∧
    ((captureClientMsg cap u n .execute (runConn cap initConn l).1).2.map Event.query)
        = some (specExecQuery (runConn cap initConn l).1) ∧
    ((captureClientMsg cap u n .execute (runConn cap initConn l).1).2.map Event.txID)
        = some (detectTx u (specExecQuery (runConn cap initConn l).1)
            (runConn cap initConn l).1.activeTxID) := by
  have hkey : lookupMap ((runConn cap initConn l).1).preparedStmts "" = none :=
    emptyKey_run cap initConn l rfl
  have hres : resolveQuery (runConn cap initConn l).1 =
      specExecQuery (runConn cap initConn l).1 :=
    resolveQuery_eq_spec _ hkey
  rw [captureClientMsg_execute, ← hres]
  exact ⟨rfl, rfl, rfl, rfl⟩

/-! ## C4 — transaction lifecycle -/

theorem detectTx_beginTx (u q t : String) (h : txClass q = .beginTx) :
    detectTx u q t = u := by
  simp only [detectTx, txClass] at h ⊢
  split_ifs at h ⊢ <;> simp_all

theorem detectTx_endTx (u q t : String) (h : txClass q = .endTx) :
    detectTx u q t = "" := by
  simp only [detectTx, txClass] at h ⊢
  split_ifs at h ⊢ <;> simp_all

theorem detectTx_otherTx (u q t : String) (h : txClass q = .otherTx) :
    detectTx u q t = t := by
  simp only [detectTx, txClass] at h ⊢
  split_ifs at h ⊢ <;> simp_all

@[simp] theorem txLiveFrom_nil (b : Bool) : txLiveFrom b [] = b := rfl

@[simp] theorem txLiveFrom_cons (b : Bool) (c : TxClass) (cs : List TxClass) :
    txLiveFrom b (c :: cs) = txLiveFrom (txStep b c) cs := rfl

@[simp] theorem txLiveFrom_append (b : Bool) (xs ys : List TxClass) :
    txLiveFrom b (xs ++ ys) = txLiveFrom (txLiveFrom b xs) ys := by
  simp [txLiveFrom, List.foldl_append]

/-- New transaction bit after one detection, as a function of the class. -/
theorem detectTx_ne_empty_iff (u q t : String) (hu : u ≠ "") (b : Bool)
    (hb : t ≠ "" ↔ b = true) :
    detectTx u q t ≠ "" ↔ txStep b (txClass q) = true := by
  cases hc : txClass q with
  | beginTx => rw [detectTx_beginTx u q t hc]; simp [txStep, hu]
  | endTx => rw [detectTx_endTx u q t hc]; simp [txStep]
  | otherTx => rw [detectTx_otherTx u q t hc]; simpa [txStep] using hb

/-- The active-transaction bit along a run: `active_tx_id` is non-empty
exactly when the fold of the emitted events' transaction classes says a
transaction is open. -/
theorem txLive_run (cap : Nat) (s : ConnState) (l : List Input) (b : Bool)
    (hu : ∀ i ∈ l, i.uuid ≠ "") (hb : s.activeTxID ≠ "" ↔ b = true) :
    ((runConn cap s l).1.activeTxID ≠ "" ↔
      txLiveFrom b (((runConn cap s l).2).map fun e => txClass e.query) = true) := by
  induction l generalizing s b with
  | nil => simpa [runConn_nil] using hb
  | cons i rest ih =>
    have hu0 : i.uuid ≠ "" := hu i (List.mem_cons_self i rest)
    have hur : ∀ j ∈ rest, j.uuid ≠ "" := fun j hj => hu j (List.mem_cons_of_mem i hj)
    rw [runConn_cons, List.map_append]
    cases hm : i.msg with
    | query q =>
      rw [captureClientMsg_query]
      simp only [Option.toList_some, List.map_cons, List.map_nil, txLiveFrom_append,
        txLiveFrom_cons, txLiveFrom_nil]
      exact ih _ _ hur
        (by simpa using detectTx_ne_empty_iff i.uuid q s.activeTxID hu0 b hb)
    | execute =>
      rw [captureClientMsg_execute]
      simp only [Option.toList_some, List.map_cons, List.map_nil, txLiveFrom_append,
        txLiveFrom_cons, txLiveFrom_nil]
      exact ih _ _ hur
        (by simpa using
          detectTx_ne_empty_iff i.uuid (resolveQuery s) s.activeTxID hu0 b hb)
    | parse name q =>
      simp only [captureClientMsg, Option.toList_none, List.map_nil, List.nil_append]
      exact ih _ _ hur (by simpa [handleParse] using hb)
    | bind stmt ps =>
      simp only [captureClientMsg, Option.toList_none, List.map_nil, List.nil_append]
      exact ih _ _ hur (by simpa [handleBind] using hb)
    | other =>
      simp only [captureClientMsg, Option.toList_none, List.map_nil, List.nil_append]
      exact ih _ _ hur hb

/-- C4: starting from the initial state, `active_tx_id` is non-empty
exactly between a BEGIN-class query and the next COMMIT/ROLLBACK-class
query (the fold of the emitted transaction classes); a BEGIN-class query
sets it to the freshly drawn (non-empty) UUID, a COMMIT/ROLLBACK-class
query clears it, every other query leaves it unchanged. -/
theorem tx_active_iff (cap : Nat) (l : List Input)
    (hu : ∀ i ∈ l, i.uuid ≠ "") :
    ((runConn cap initConn l).1.activeTxID ≠ "" ↔
      txLive (((runConn cap initConn l).2).map fun e => txClass e.query) = true) ∧
    (∀ u q t, txClass q = .beginTx → detectTx u q t = u) ∧
    (∀ u q t, txClass q = .endTx → detectTx u q t = "") ∧
    (∀ u q t, txClass q = .otherTx → detectTx u q t = t) :=
  ⟨txLive_run cap initConn l false hu (by simp [initConn]),
   detectTx_beginTx, detectTx_endTx, detectTx_otherTx⟩

/-- Witness for C4 at a concrete run: after a single BEGIN the state is
inside a transaction and the fold agrees; "BEGIN" is BEGIN-class and sets
the drawn UUID. -/
theorem tx_active_iff_wit :
    ((runConn 1 initConn [⟨"u1", 0, .query "BEGIN"⟩]).1.activeTxID ≠ "" ↔
      txLive (((runConn 1 initConn [⟨"u1", 0, .query "BEGIN"⟩]).2).map
        fun e => txClass e.query) = true) ∧
    detectTx "u9" "BEGIN" "t" = "u9" :=
  ⟨(tx_active_iff 1 [⟨"u1", 0, .query "BEGIN"⟩] (by decide)).1,
   (tx_active_iff 1 [⟨"u1", 0, .query "BEGIN"⟩] (by decide)).2.1 "u9" "BEGIN" "t"
     (by decide)⟩

/-! ## C3 — event identifiers -/

@[simp] theorem genCount_nil : genCount [] = 0 := rfl

theorem genCount_cons (i : Input) (l : List Input) :
    genCount (i :: l) = if isGen i.msg then genCount l + 1 else genCount l := by
  simp only [genCount, List.filter_cons]
  split <;> simp

theorem genCount_append (a b : List Input) :
    genCount (a ++ b) = genCount a + genCount b := by
  simp [genCount, List.filter_append]

theorem captureClientMsg_nextID (cap : Nat) (u : String) (n : Nat)
    (m : FrontendMsg) (s : ConnState) :
    ((captureClientMsg cap u n m s).1).nextID =
      if isGen m then (s.nextID + 1) % 2 ^ 64 else s.nextID := by
  cases m with
  | query q => rw [captureClientMsg_query]; simp [isGen]
  | execute => rw [captureClientMsg_execute]; simp [isGen]
  | parse name q => simp [captureClientMsg, handleParse, isGen]
  | bind stmt ps => simp [captureClientMsg, handleBind, isGen]
  | other => simp [captureClientMsg, isGen]

/-- The uint64 counter after a run: initial value plus the number of
event-generating messages, wrapped modulo `2^64`. -/
theorem run_nextID (cap : Nat) (s : ConnState) (l : List Input)
    (hs : s.nextID < 2 ^ 64) :
    ((runConn cap s l).1).nextID = (s.nextID + genCount l) % 2 ^ 64 := by
  induction l generalizing s with
  | nil =>
    simp only [runConn_nil, genCount_nil, Nat.add_zero]
    exact (Nat.mod_eq_of_lt hs).symm
  | cons i rest ih =>
    rw [runConn_cons]
    by_cases hg : isGen i.msg
    · have h1 : ((captureClientMsg cap i.uuid i.now i.msg s).1).nextID =
          (s.nextID + 1) % 2 ^ 64 := by rw [captureClientMsg_nextID]; simp [hg]
      have h2 : ((captureClientMsg cap i.uuid i.now i.msg s).1).nextID < 2 ^ 64 := by
        rw [h1]; exact Nat.mod_lt _ (by norm_num)
      rw [ih _ h2, h1, Nat.mod_add_mod, genCount_cons]
      simp only [hg, if_true]
      ring_nf
    · have h1 : ((captureClientMsg cap i.uuid i.now i.msg s).1).nextID = s.nextID := by
        rw [captureClientMsg_nextID]; simp [hg]
      rw [ih _ (h1 ▸ hs), h1, genCount_cons]
      simp [hg]

/-- The id carried by the event a step emits, if any. -/
theorem captureClientMsg_ids (cap : Nat) (u : String) (n : Nat)
    (m : FrontendMsg) (s : ConnState) :
    ((captureClientMsg cap u n m s).2.toList).map Event.id =
      (if isGen m then [Nat.repr ((s.nextID + 1) % 2 ^ 64)] else []) := by
  cases m with
  | query q => rw [captureClientMsg_query]; simp [isGen]
  | execute => rw [captureClientMsg_execute]; simp [isGen]
  | parse name q => simp [captureClientMsg, isGen]
  | bind stmt ps => simp [captureClientMsg, isGen]
  | other => simp [captureClientMsg, isGen]

/-- The identifiers of the events emitted by a run, while the counter does
not wrap: consecutive decimal strings continuing from the start state's
counter. -/
theorem run_ids (cap : Nat) (s : ConnState) (l : List Input)
    (h : s.nextID + genCount l < 2 ^ 64) :
    ((runConn cap s l).2).map Event.id =
      (List.range (genCount l)).map fun k => Nat.repr (s.nextID + k + 1) := by
  induction l generalizing s with
  | nil => simp [runConn_nil]
  | cons i rest ih =>
    rw [runConn_cons, List.map_append, captureClientMsg_ids]
    by_cases hg : isGen i.msg
    · have hcnt : s.nextID + genCount rest + 1 < 2 ^ 64 := by
        rw [genCount_cons] at h
        simp only [hg, if_true] at h
        omega
      have hmod : (s.nextID + 1) % 2 ^ 64 = s.nextID + 1 := by
        have hlt : s.nextID + 1 < 2 ^ 64 := by omega
        exact Nat.mod_eq_of_lt hlt
      have hXn : (captureClientMsg cap i.uuid i.now i.msg s).1.nextID =
          s.nextID + 1 := by
        rw [captureClientMsg_nextID, if_pos hg, hmod]
      have hih := ih (captureClientMsg cap i.uuid i.now i.msg s).1
        (by rw [hXn]; omega)
      rw [hXn] at hih
      have hfun : (fun k => Nat.repr (s.nextID + 1 + k + 1)) =
          ((fun k => Nat.repr (s.nextID + k + 1)) ∘ Nat.succ) := by
        funext k
        simp only [Function.comp_apply]
        congr 1
        omega
      rw [hfun] at hih
      rw [hih, genCount_cons, if_pos hg, if_pos hg, hmod, List.range_succ_eq_map,
        List.map_cons, List.map_map, List.singleton_append]
    · have hgc : genCount (i :: rest) = genCount rest := by
        rw [genCount_cons]
        simp [hg]
      have hXn : (captureClientMsg cap i.uuid i.now i.msg s).1.nextID = s.nextID := by
        rw [captureClientMsg_nextID]
        simp [hg]
      have hcnt : (captureClientMsg cap i.uuid i.now i.msg s).1.nextID +
          genCount rest < 2 ^ 64 := by
        rw [hXn, ← hgc]
        exact h
      have hih := ih (captureClientMsg cap i.uuid i.now i.msg s).1 hcnt
      rw [hXn] at hih
      rw [hih, hgc]
      simp [hg]

/-- C3 (amended): while fewer than `2^64` events have been generated, the
emitted events carry the decimal strings of the 64-bit counter in order:
the k-th event (0-based) has id `Nat.repr (k+1)` — so the first is "1" and
numeric ids strictly increase and match message order — one event per
generating message, and `next_id` never decreases along the trace. -/
theorem event_ids_sequential (cap : Nat) (l : List Input)
    (h : genCount l < 2 ^ 64) :
    ((runConn cap initConn l).2).map Event.id =
      (List.range (genCount l)).map (fun k => Nat.repr (k + 1)) ∧
    ((runConn cap initConn l).2).length = genCount l ∧
    (runConn cap initConn l).1.nextID = genCount l ∧
    (∀ l1 l2, l = l1 ++ l2 →
      (runConn cap initConn l1).1.nextID ≤ (runConn cap initConn l).1.nextID) := by
  have hinit : initConn.nextID = 0 := rfl
  have hb : initConn.nextID < 2 ^ 64 := by
    rw [hinit]
    exact pow_pos (by norm_num) 64
  have hids := run_ids cap initConn l (by rw [hinit]; omega)
  have hids' : ((runConn cap initConn l).2).map Event.id =
      (List.range (genCount l)).map (fun k => Nat.repr (k + 1)) := by
    rw [hids]
    apply List.map_congr_left
    intro k hk
    simp [hinit]
  refine ⟨hids', ?_, ?_, ?_⟩
  · have hlen := congrArg List.length hids'
    simpa using hlen
  · have hn := run_nextID cap initConn l hb
    rw [hn, hinit, Nat.zero_add]
    exact Nat.mod_eq_of_lt h
  · intro l1 l2 hl
    subst hl
    rw [genCount_append] at h
    have e1 := run_nextID cap initConn l1 hb
    have e2 := run_nextID cap initConn (l1 ++ l2) hb
    rw [genCount_append] at e2
    rw [e1, e2, hinit, Nat.zero_add, Nat.zero_add,
      Nat.mod_eq_of_lt (by omega : genCount l1 < 2 ^ 64),
      Nat.mod_eq_of_lt (by omega : genCount l1 + genCount l2 < 2 ^ 64)]
    omega

/-- Witness for C3 at a concrete run: two simple queries get ids "1" and
"2" and leave the counter at 2. -/
theorem event_ids_sequential_wit :
    ((runConn 10 initConn [⟨"", 0, .query "A"⟩, ⟨"", 1, .query "B"⟩]).2).map Event.id
        = ["1", "2"] ∧
    (runConn 10 initConn [⟨"", 0, .query "A"⟩, ⟨"", 1, .query "B"⟩]).1.nextID = 2 := by
  have h := event_ids_sequential 10 [⟨"", 0, .query "A"⟩, ⟨"", 1, .query "B"⟩]
    (by decide)
  exact ⟨h.1.trans (by decide), h.2.2.1.trans (by decide)⟩

/-- C3 (counterexample): the uint64 id counter wraps. Extending a trace of
`2^64 - 1` simple queries by one more query makes `next_id` wrap to 0 —
strictly smaller than its previous value `2^64 - 1` — refuting "next_id
never decreases" (and, with it, strict id increase) on the unbounded
claim. -/
theorem next_id_wraps :
    (runConn 0 initConn (List.replicate (2 ^ 64 - 1) ⟨"", 0, .query "X"⟩ ++
        [⟨"", 0, .query "X"⟩])).1.nextID <
      (runConn 0 initConn (List.replicate (2 ^ 64 - 1) ⟨"", 0, .query "X"⟩)).1.nextID := by
  have hrep : ∀ n : Nat,
      genCount (List.replicate n (⟨"", 0, .query "X"⟩ : Input)) = n := by
    intro n
    induction n with
    | zero => rfl
    | succ k ih =>
      rw [List.replicate_succ, genCount_cons, ih]
      simp [isGen]
  have hinit : initConn.nextID = 0 := rfl
  have hb : initConn.nextID < 2 ^ 64 := by
    rw [hinit]
    exact pow_pos (by norm_num) 64
  have e1 := run_nextID 0 initConn
    (List.replicate (2 ^ 64 - 1) ⟨"", 0, .query "X"⟩) hb
  have e2 := run_nextID 0 initConn
    (List.replicate (2 ^ 64 - 1) ⟨"", 0, .query "X"⟩ ++ [⟨"", 0, .query "X"⟩]) hb
  rw [genCount_append, hrep] at e2
  rw [hrep] at e1
  have hone : genCount [(⟨"", 0, .query "X"⟩ : Input)] = 1 := rfl
  rw [hone] at e2
  rw [e1, e2, hinit]
  have hM : (2 : Nat) ^ 64 = 18446744073709551616 := by norm_num
  rw [hM]
  norm_num

/-! ## C7 — startup relay characterization -/

theorem loop_plain_cons (m : BackendMsg) (hm : plainB m = true)
    (rest : List (Except Unit BackendMsg)) :
    relayStartupLoop (.ok m :: rest) =
      (m :: (relayStartupLoop rest).1, (relayStartupLoop rest).2) := by
  cases m with
  | readyForQuery => simp [plainB] at hm
  | errorResponse => simp [plainB] at hm
  | commandComplete t => rfl
  | other t => rfl

theorem loop_all_plain (good : List BackendMsg)
    (hg : ∀ m ∈ good, plainB m = true) (tail : List (Except Unit BackendMsg)) :
    relayStartupLoop (good.map Except.ok ++ tail) =
      (good ++ (relayStartupLoop tail).1, (relayStartupLoop tail).2) := by
  induction good with
  | nil => simp
  | cons m ms ih =>
    have hm : plainB m = true := hg m (List.mem_cons_self m ms)
    have hms : ∀ x ∈ ms, plainB x = true := fun x hx => hg x (List.mem_cons_of_mem m hx)
    simp only [List.map_cons, List.cons_append]
    rw [loop_plain_cons m hm, ih hms]

/-- C7: the startup relay forwards the client startup message unchanged to
upstream, forwards every received backend message unchanged to the client
in order, succeeds exactly on ReadyForQuery, fails with the auth error
exactly on ErrorResponse — whose bytes are forwarded to the client first —
and fails with an I/O error when a receive fails (or the stream ends with
neither terminator). -/
theorem startup_relay_chr (st : Nat) (good : List BackendMsg)
    (rest : List (Except Unit BackendMsg)) (e : Unit)
    (hg : ∀ m ∈ good, plainB m = true) :
    (∀ ups, (relayStartup st ups).1 = [st]) ∧
    relayStartupLoop (good.map Except.ok ++ Except.ok BackendMsg.readyForQuery :: rest)
        = (good ++ [BackendMsg.readyForQuery], RelayRes.ok) ∧
    relayStartupLoop (good.map Except.ok ++ Except.ok BackendMsg.errorResponse :: rest)
        = (good ++ [BackendMsg.errorResponse], RelayRes.authErr) ∧
    relayStartupLoop (good.map Except.ok ++ Except.error e :: rest)
        = (good, RelayRes.ioErr) ∧
    relayStartupLoop (good.map Except.ok) = (good, RelayRes.ioErr) := by
  refine ⟨fun ups => rfl, ?_, ?_, ?_, ?_⟩
  · rw [loop_all_plain good hg]
    rfl
  · rw [loop_all_plain good hg]
    rfl
  · rw [loop_all_plain good hg]
    simp [relayStartupLoop]
  · have hnil := loop_all_plain good hg []
    simpa [relayStartupLoop] using hnil

/-- Witness for C7 at a concrete stream: one CommandComplete then
ReadyForQuery succeeds with both forwarded; the same stream truncated
before any terminator is an I/O error. -/
theorem startup_relay_chr_wit :
    relayStartupLoop ([BackendMsg.commandComplete "SET"].map Except.ok ++
        Except.ok BackendMsg.readyForQuery :: []) =
      ([BackendMsg.commandComplete "SET"] ++ [BackendMsg.readyForQuery], RelayRes.ok) ∧
    relayStartupLoop ([BackendMsg.commandComplete "SET"].map Except.ok) =
      ([BackendMsg.commandComplete "SET"], RelayRes.ioErr) :=
  ⟨(startup_relay_chr 0 [BackendMsg.commandComplete "SET"] [] () (by decide)).2.1,
   (startup_relay_chr 0 [BackendMsg.commandComplete "SET"] [] () (by decide)).2.2.2.2⟩

/-! ## C10 — parseRowsAffected characterization -/

theorem splitSpaceChars_ne_nil (cs : List Char) : splitSpaceChars cs ≠ [] := by
  cases cs with
  | nil => simp [splitSpaceChars]
  | cons c rest =>
    by_cases hc : c = ' '
    · simp [splitSpaceChars, hc]
    · cases hsp : splitSpaceChars rest with
      | nil => simp [splitSpaceChars, hc, hsp]
      | cons h t => simp [splitSpaceChars, hc, hsp]

theorem digitsAcc_eq (cs : List Char) (a : Nat) :
    digitsAcc cs a =
      (if cs.all (fun c => '0' ≤ c && c ≤ '9')
       then some (cs.foldl (fun x c => 10 * x + (c.toNat - '0'.toNat)) a)
       else none) := by
  induction cs generalizing a with
  | nil => simp [digitsAcc]
  | cons c rest ih =>
    by_cases hc : ('0' ≤ c && c ≤ '9') = true
    · have hd : digitVal c = some (c.toNat - '0'.toNat) := by simp [digitVal, hc]
      simp [digitsAcc, hd, ih, List.all_cons, hc, List.foldl_cons, Nat.mul_comm]
    · have hd : digitVal c = none := by simp [digitVal, hc]
      simp [digitsAcc, hd, List.all_cons, hc]

theorem digitsToNat?_eq (cs : List Char) :
    digitsToNat? cs = (if decDigits cs = true then some (digitsVal cs) else none) := by
  cases cs with
  | nil => simp [digitsToNat?, decDigits]
  | cons c rest =>
    simp [digitsToNat?, digitsAcc_eq, decDigits, digitsVal]

theorem clampInt64_ofNat (n : Nat) :
    clampInt64 (n : Int) =
      (if n ≥ 2 ^ 63 then (2 ^ 63 : Int) - 1 else (n : Int)) := by
  have eN : (2 : Nat) ^ 63 = 9223372036854775808 := by norm_num
  have eZ : (2 : Int) ^ 63 = 9223372036854775808 := by norm_num
  simp only [clampInt64, eN, eZ, ge_iff_le]
  rcases le_or_lt 9223372036854775808 n with hn | hn
  · rw [if_pos hn, min_def, max_def]
    split_ifs <;> omega
  · rw [if_neg (by omega), min_def, max_def]
    split_ifs <;> omega

theorem clampInt64_negOfNat (n : Nat) :
    clampInt64 (-(n : Int)) =
      (if n > 2 ^ 63 then -(2 ^ 63 : Int) else -(n : Int)) := by
  have eN : (2 : Nat) ^ 63 = 9223372036854775808 := by norm_num
  have eZ : (2 : Int) ^ 63 = 9223372036854775808 := by norm_num
  simp only [clampInt64, eN, eZ, gt_iff_lt]
  rcases le_or_lt n 9223372036854775808 with hn | hn
  · rw [if_neg (by omega), min_def, max_def]
    split_ifs <;> omega
  · rw [if_pos (by omega), min_def, max_def]
    split_ifs <;> omega

/-- `goParseInt64` against the spec-side decimal syntax: the clamped value
on well-formed signed decimals, 0 otherwise. -/
theorem goParseInt64_chr (s : String) :
    (isDecimalLit s.data = true → goParseInt64 s = clampInt64 (decimalLitVal s.data)) ∧
    (isDecimalLit s.data = false → goParseInt64 s = 0) := by
  cases hs : s.data with
  | nil =>
    constructor
    · intro h
      simp [isDecimalLit] at h
    · intro _
      simp [goParseInt64, hs]
  | cons c rest =>
    by_cases hm : c = '-'
    · subst hm
      have hne : ¬('-' : Char) = '+' := by decide
      constructor
      · intro h
        have hd : decDigits rest = true := by simpa [isDecimalLit] using h
        simp [goParseInt64, hs, digitsToNat?_eq, hd, decimalLitVal,
          clampInt64_negOfNat, hne]
      · intro h
        have hd : decDigits rest = false := by simpa [isDecimalLit] using h
        simp [goParseInt64, hs, digitsToNat?_eq, hd, hne]
    · by_cases hp : c = '+'
      · subst hp
        have hne : ¬('+' : Char) = '-' := by decide
        constructor
        · intro h
          have hd : decDigits rest = true := by simpa [isDecimalLit] using h
          simp [goParseInt64, hs, digitsToNat?_eq, hd, decimalLitVal,
            clampInt64_ofNat, hne]
        · intro h
          have hd : decDigits rest = false := by simpa [isDecimalLit] using h
          simp [goParseInt64, hs, digitsToNat?_eq, hd, hne]
      · constructor
        · intro h
          have hd : decDigits (c :: rest) = true := by
            simpa [isDecimalLit, hm, hp] using h
          simp [goParseInt64, hs, digitsToNat?_eq, hd, decimalLitVal,
            clampInt64_ofNat, hm, hp]
        · intro h
          have hd : decDigits (c :: rest) = false := by
            simpa [isDecimalLit, hm, hp] using h
          simp [goParseInt64, hs, digitsToNat?_eq, hd, hm, hp]

/-- C10 (amended): `parseRowsAffected` is total; there is always a last
space-separated token; when that token is a well-formed signed decimal the
result is its value saturated to the int64 range (Go's `ParseInt` returns
the clamped value with `ErrRange` on overflow and the code ignores the
error), and otherwise — empty string included — the result is 0. -/
theorem parse_rows_affected_chr (tag : String) :
    goSplitSpace tag ≠ [] ∧
    (∀ tok : String, (goSplitSpace tag).getLast? = some tok →
      (isDecimalLit tok.data = true →
        parseRowsAffected tag = clampInt64 (decimalLitVal tok.data)) ∧
      (isDecimalLit tok.data = false → parseRowsAffected tag = 0)) := by
  constructor
  · intro hnil
    exact splitSpaceChars_ne_nil tag.data (by simpa [goSplitSpace] using hnil)
  · intro tok hlast
    have hpr : parseRowsAffected tag = goParseInt64 tok := by
      simp only [parseRowsAffected]
      rw [hlast]
    rw [hpr]
    exact goParseInt64_chr tok

/-- Witness for C10 at concrete tags: an in-range numeric tag yields its
value, a non-numeric tag yields 0. -/
theorem parse_rows_affected_chr_wit :
    parseRowsAffected "INSERT 0 5" = 5 ∧
    parseRowsAffected "CREATE TABLE" = 0 := by
  have h1 := ((parse_rows_affected_chr "INSERT 0 5").2 "5" (by decide)).1 (by decide)
  have h2 := ((parse_rows_affected_chr "CREATE TABLE").2 "TABLE" (by decide)).2
    (by decide)
  exact ⟨h1.trans (by decide), h2⟩

/-- C10 (counterexample): on the tag "SELECT 9223372036854775808" the last
token is a decimal whose value exceeds the int64 maximum, so it does not
parse as a signed 64-bit integer, yet the function returns the saturated
bound 9223372036854775807 — not the 0 the claim requires. -/
theorem parse_rows_overflow :
    parseRowsAffected "SELECT 9223372036854775808" = 9223372036854775807 ∧
    ((2 : Int) ^ 63 - 1 <
      decimalLitVal (String.data "9223372036854775808")) ∧
    parseRowsAffected "SELECT 9223372036854775808" ≠ 0 := by
  refine ⟨by decide, by decide, by decide⟩

end SqlTap
